import Mathlib

/-!
# Verification of the gulp build pipeline of the `es6` repository

The repository's executable logic is a gulp build script (`gulpfile.js`)
that registers six tasks (`connect`, `watch`, `copyhtml`, `copyjs`,
`clean`, `default`) with the gulp orchestrator, plus a variant gulpfile
that adds a babel transformation step to `copyjs`.

The gulp orchestrator itself (task registration, depth-first dependency
resolution, memoized execution, watch-event scheduling, stream-completion
observation) is a third-party library that is not part of the repository
sources; its behaviour is modelled here from the specification.  The
concrete data fed to the orchestrator — the task names, prerequisite
lists, glob patterns, pipeline shapes and whether each task body returns
its stream — is transliterated directly from `gulpfile.js` and the
variant gulpfile.
-/

namespace Es6Build

/-- A registered task: a name and the list of prerequisite task names,
as passed to `gulp.task(name, deps, fn)`. -/
structure Task where
  name : String
  deps : List String
deriving DecidableEq, Repr

/-- The process-wide task registry: the list of registered tasks. -/
abbrev Registry := List Task

/-- Look up a task by name in the registry. -/
def lookupTask (r : Registry) (n : String) : Option Task :=
  r.find? (fun t => t.name == n)

/-- The names of the tasks in a registry. -/
def names (r : Registry) : List String :=
  r.map Task.name

/-- Modelled from the spec: `register(taskName, prerequisites[], action)`
adds a Task to the process-wide registry and fails with a configuration
error if a duplicate name is registered.  (The registration machinery
lives in the gulp library, outside the repository sources.) -/
def register (r : Registry) (t : Task) : Except String Registry :=
  if t.name ∈ names r then
    Except.error ("duplicate task: " ++ t.name)
  else
    Except.ok (r ++ [t])

/-- Modelled from the spec: performing a sequence of `register` calls in
order, stopping at the first configuration error.  No task action runs
during registration. -/
def registerAll (r : Registry) : List Task → Except String Registry
  | [] => Except.ok r
  | t :: ts =>
    match register r t with
    | Except.error e => Except.error e
    | Except.ok r2 => registerAll r2 ts

/-- The six `gulp.task` registration calls of `src/gulpfile.js`, in
source order, with the prerequisite lists written there. -/
def gulpfileRegistrations : List Task :=
  [ ⟨"connect", ["clean"]⟩,
    ⟨"watch", ["clean"]⟩,
    ⟨"copyhtml", ["clean"]⟩,
    ⟨"copyjs", ["clean"]⟩,
    ⟨"clean", []⟩,
    ⟨"default", ["clean", "copyhtml", "copyjs", "connect", "watch"]⟩ ]

/-- The registry resulting from the gulpfile's registration calls. -/
def gulpRegistry : Registry := gulpfileRegistrations

/-- Modelled from the spec: `run(taskName)` resolves the named Task's
transitive prerequisites via a depth-first traversal, producing a linear
execution order where every prerequisite precedes its dependent; a
prerequisite already in the accumulated order is skipped (memoized per
invocation of `run`).  `fuel` bounds the recursion depth; any fuel at
least the registry size is enough on an acyclic registry.  (The
resolution machinery lives in the gulp library, outside the repository
sources.) -/
def dfsRun (r : Registry) : Nat → List String → String → List String
  | 0, acc, _ => acc
  | fuel + 1, acc, n =>
    if acc.contains n then acc
    else
      match lookupTask r n with
      | none => acc
      | some t => (t.deps.foldl (dfsRun r fuel) acc) ++ [n]

/-- The linear execution order that one invocation of `run n` executes,
for the gulpfile's registry. -/
def execOrder (n : String) : List String :=
  dfsRun gulpRegistry 8 [] n

/-- Modelled from the spec: the set (as a deduplicated list) of
transitive prerequisites of a task. -/
def transDeps (r : Registry) : Nat → String → List String
  | 0, _ => []
  | fuel + 1, n =>
    match lookupTask r n with
    | none => []
    | some t => (t.deps.flatMap (fun d => d :: transDeps r fuel d)).dedup

/-- Transitive prerequisites of a task in the gulpfile's registry. -/
def gulpTransDeps (n : String) : List String :=
  transDeps gulpRegistry 8 n

/-- An event of the sequential execution trace: a task's action starts,
or a task's action completes. -/
inductive Ev where
  | start (n : String)
  | finish (n : String)
deriving DecidableEq, Repr

/-- Modelled from the spec: executing each Task's action in the linear
order, one at a time — each action starts and completes before the next
one starts. -/
def seqTrace (order : List String) : List Ev :=
  order.flatMap (fun n => [Ev.start n, Ev.finish n])

/-- Position of the first occurrence of an event in a trace. -/
def evIdx (tr : List Ev) (e : Ev) : Nat :=
  tr.indexOf e

/-! ## Glob matching

The gulpfile selects files with the glob patterns `src/**/*.js`,
`./src/*.js` and `./src/index.html`.  Paths are represented as lists of
segments.  Modelled from the spec's external collaborator interface
(a file-system change notifier keyed by path globs): `*` matches any
sequence of characters within one segment, `**` as a whole segment
matches zero or more segments, and a leading `./` is normalized away. -/

/-- Wildcard match of one glob segment against one path segment:
`*` matches any (possibly empty) run of characters, i.e. the rest of the
pattern matches some suffix of the segment. -/
def matchSeg : List Char → List Char → Bool
  | [], s => s.isEmpty
  | '*' :: ps, s => s.tails.any (fun t => matchSeg ps t)
  | p :: ps, s =>
    match s with
    | [] => false
    | c :: cs => (p == c) && matchSeg ps cs

/-- Match a segmented glob against a segmented path; a `**` segment
matches zero or more path segments, i.e. the rest of the glob matches
some suffix of the path. -/
def matchSegs : List String → List String → Bool
  | [], ss => ss.isEmpty
  | g :: gs, ss =>
    if g = "**" then
      ss.tails.any (fun t => matchSegs gs t)
    else
      match ss with
      | [] => false
      | s :: ss2 => matchSeg g.data s.data && matchSegs gs ss2

/-- A file path, as its list of `/`-separated segments. -/
abbrev Path := List String

/-- The glob `"src/**/*.js"` of the `copyjs` task, segmented. -/
def copyjsGlob : List String := ["src", "**", "*.js"]

/-- The glob `'./src/*.js'` of the first watch binding, segmented with
the leading `./` normalized away. -/
def watchJsGlob : List String := ["src", "*.js"]

/-- The glob `'./src/index.html'` of the second watch binding and of the
`copyhtml` task, segmented with the leading `./` normalized away. -/
def watchHtmlGlob : List String := ["src", "index.html"]

/-! ## File-system and process state -/

/-- A file system: an association list from paths to file contents.
Lookup returns the first entry for a path. -/
abbrev FS := List (Path × String)

/-- Content of the file at a path, if present. -/
def lookupFS (fs : FS) (p : Path) : Option String :=
  (fs.find? (fun e => e.1 = p)).map (fun e => e.2)

/-- Write a whole file: replace any entry at the path by the new
content. -/
def write (fs : FS) (p : Path) (c : String) : FS :=
  (p, c) :: fs.filter (fun e => ¬ e.1 = p)

/-- Write a batch of whole files in order. -/
def writeAll (fs : FS) (outs : List (Path × String)) : FS :=
  outs.foldl (fun a o => write a o.1 o.2) fs

/-- Process state: one shared file system (source files live under
`src`, build outputs under `dist`), whether the HTTP server session is
running, and whether the file-system watchers are active. -/
structure Sys where
  fs : FS
  serverRunning : Bool
  watching : Bool
deriving Repr

/-- The `clean` task on the file system: `gulp.src` of `./dist` piped
into `rimraf` recursively removes the `dist` directory, deleting
every entry whose path starts with the `dist` segment. -/
def cleanFS (fs : FS) : FS :=
  fs.filter (fun e => ¬ e.1.headI = "dist")

/-- The batch of outputs the `copyjs` pipeline produces from a source
tree: every file matching `src/**/*.js` is transformed by `compile` and
destined for `dist` at its path relative to the base `src/`
(`gulp.dest('dist')` with `base : 'src/'`).  In `src/gulpfile.js` the
pipeline is a plain copy (`compile = id`); the variant gulpfile
interposes babel. -/
def copyJsOutputs (compile : String → String) (fs : FS) : List (Path × String) :=
  (fs.filter (fun e => matchSegs copyjsGlob e.1)).map
    (fun e => ("dist" :: e.1.tail, compile e.2))

/-- Run the `copyjs` pipeline over the file system. -/
def copyJsAll (compile : String → String) (fs : FS) : FS :=
  writeAll fs (copyJsOutputs compile fs)

/-- The `copyhtml` pipeline on the file system:
`gulp.src('./src/index.html').pipe(gulp.dest('./dist'))` copies the one
markup file, if present, to `dist/index.html`. -/
def copyHtmlFS (fs : FS) : FS :=
  match lookupFS fs ["src", "index.html"] with
  | some c => write fs ["dist", "index.html"] c
  | none => fs

/-- The effect of one task's action on the process state, transliterated
from the bodies in `src/gulpfile.js`: `clean` deletes `dist`; `copyhtml`
copies `./src/index.html` to `./dist`; `copyjs` copies every
`src/**/*.js` file to `dist` (plain copy in this gulpfile); `connect`
starts the server session; `watch` installs the watchers; `default` has
no body of its own. -/
def applyTask (s : Sys) (n : String) : Sys :=
  if n = "clean" then { s with fs := cleanFS s.fs }
  else if n = "copyhtml" then { s with fs := copyHtmlFS s.fs }
  else if n = "copyjs" then { s with fs := copyJsAll id s.fs }
  else if n = "connect" then { s with serverRunning := true }
  else if n = "watch" then { s with watching := true }
  else s

/-- Running `run n` on the gulpfile's registry: the actions of the
resolved execution order are applied to the state in order. -/
def runTask (s : Sys) (n : String) : Sys :=
  (execOrder n).foldl applyTask s

/-! ## Watch bindings and change-event scheduling -/

/-- A watch binding: a glob pattern bound to a task name, as passed to
`gulp.watch(glob, [task])`. -/
structure WatchBinding where
  glob : List String
  task : String
deriving DecidableEq, Repr

/-- The two watch bindings installed by the `watch` task of
`src/gulpfile.js`: `gulp.watch(['./src/*.js'], ['copyjs'])` and
`gulp.watch('./src/index.html', ['copyhtml'])`. -/
def gulpWatchBindings : List WatchBinding :=
  [⟨watchJsGlob, "copyjs"⟩, ⟨watchHtmlGlob, "copyhtml"⟩]

/-- Modelled from the spec: on a file-system change event for path `p`,
the watcher schedules one `run` invocation of the bound task for each
binding whose glob matches `p`.  The destination file system plays no
part in the decision (no dedupe / skip-if-unchanged logic); it is taken
as an argument only to express that independence.  (The watcher lives in
the gulp library, outside the repository sources.) -/
def scheduledRuns (bs : List WatchBinding) (_destFs : FS) (p : Path) : List String :=
  bs.filterMap (fun b => if matchSegs b.glob p then some b.task else none)

/-! ## Per-file transformation with failure (variant gulpfile)

The variant gulpfile pipes `copyjs` through
`babel({ presets : ['es2015'] })`; a malformed source file makes the
transformation fail.  Modelled from the spec: the per-file write is
all-or-nothing — on failure the error is surfaced as a build failure and
the destination receives nothing for that file. -/

/-- Process one source file through the babel `copyjs` pipeline of the
variant gulpfile: `compile` is the source-to-target transformer (`none`
on malformed input).  Returns the destination file system together with
whether a build failure was surfaced for the file. -/
def copyJsFileBabel (compile : String → Option String) (dest : FS)
    (e : Path × String) : FS × Bool :=
  match compile e.2 with
  | some out => (write dest ("dist" :: e.1.tail) out, false)
  | none => (dest, true)

/-! ## Stream completion as observed by the orchestrator

Modelled from the spec's asynchronous-completion-signal interface
together with the task bodies of `src/gulpfile.js`: a task body that
returns its stream signals completion when the pipeline ends; a body
that returns nothing is observed complete as soon as it returns, even
though the pipeline it started is still pending. -/

/-- How the orchestrator observes a task's completion. -/
inductive Completion where
  | immediate
  | pipelineEnd
deriving DecidableEq, Repr

/-- A task body as written in the source: whether it returns its stream,
and the pipeline stages it builds, in order. -/
structure GulpAction where
  returnsStream : Bool
  pipelineOps : List String
deriving DecidableEq, Repr

/-- The `copyhtml` body in `src/gulpfile.js`: builds
`gulp.src('./src/index.html').pipe(gulp.dest('./dist'))
.pipe(connect.reload())` but has no `return` statement. -/
def copyhtmlAction : GulpAction :=
  ⟨false, ["src ./src/index.html", "dest ./dist", "connect.reload"]⟩

/-- The `copyjs` body in `src/gulpfile.js`: it returns
`gulp.src(...).pipe(gulp.dest('dist')).pipe(connect.reload())`. -/
def copyjsAction : GulpAction :=
  ⟨true, ["src src/**/*.js", "dest dist", "connect.reload"]⟩

/-- The `clean` body in `src/gulpfile.js`: it returns
`gulp.src('./dist').pipe(rimraf())`. -/
def cleanAction : GulpAction :=
  ⟨true, ["src ./dist", "rimraf"]⟩

/-- The orchestrator's completion observation for a task body. -/
def observedCompletion (a : GulpAction) : Completion :=
  if a.returnsStream then Completion.pipelineEnd else Completion.immediate

/-- Timeline of one execution of a task body: when the body returns its
stream, the orchestrator's completion observation comes after every
pipeline stage finishes; when it does not, the observation comes before
the pipeline stages run to completion. -/
def observationTimeline (a : GulpAction) : List String :=
  if a.returnsStream then a.pipelineOps ++ ["observedComplete"]
  else "observedComplete" :: a.pipelineOps

/-- The declared prerequisite list of a task in the gulpfile's registry
(empty for an unregistered name). -/
def depsOf (n : String) : List String :=
  ((lookupTask gulpRegistry n).map Task.deps).getD []

/-- The entries of a file system that live under the `dist` destination
directory. -/
def distPart (fs : FS) : FS :=
  fs.filter (fun e => e.1.headI = "dist")

/-! ## Helper lemmas -/

theorem matchSeg_star_suffix (t : List Char) (h : matchSeg t t = true) :
    ∀ pre : List Char, matchSeg ('*' :: t) (pre ++ t) = true := by
  intro pre
  have hmem : t ∈ (pre ++ t).tails :=
    (List.mem_tails t (pre ++ t)).2 (List.suffix_append pre t)
  simp only [matchSeg, List.any_eq_true]
  exact ⟨t, hmem, h⟩

theorem matchSegs_globstar_append (gs : List String) (ss : List String)
    (h : matchSegs gs ss = true) :
    ∀ mids : List String, matchSegs ("**" :: gs) (mids ++ ss) = true := by
  intro mids
  have hmem : ss ∈ (mids ++ ss).tails :=
    (List.mem_tails ss (mids ++ ss)).2 (List.suffix_append mids ss)
  simp only [matchSegs, eq_self_iff_true, if_true, List.any_eq_true]
  exact ⟨ss, hmem, h⟩

theorem matchSegs_two_lits (g1 g2 : String) (h1 : ¬ g1 = "**") (h2 : ¬ g2 = "**")
    (s1 s2 s3 : String) (ss : List String) :
    matchSegs [g1, g2] (s1 :: s2 :: s3 :: ss) = false := by
  simp [matchSegs, h1, h2]

theorem lookupFS_write_self (fs : FS) (p : Path) (c : String) :
    lookupFS (write fs p c) p = some c := by
  simp [lookupFS, write, List.find?]

theorem lookupFS_write_ne (fs : FS) (p q : Path) (c : String) (h : ¬ q = p) :
    lookupFS (write fs p c) q = lookupFS fs q := by
  unfold lookupFS write
  have hq : (decide ((p, c).1 = q)) = false := by
    simp only [decide_eq_false_iff_not]
    exact fun hh => h hh.symm
  induction fs with
  | nil => simp [List.find?, hq, Ne.symm h]
  | cons e fs ih =>
      by_cases hep : e.1 = p
      · by_cases heq : e.1 = q
        · exact absurd (heq ▸ hep) (by simpa [heq] using h)
        · simp_all [List.find?, List.filter]
      · by_cases heq : e.1 = q
        · simp_all [List.find?, List.filter]
        · simp_all [List.find?, List.filter]

theorem lookupFS_writeAll_isSome (outs : List (Path × String)) :
    ∀ (fs : FS) (q : Path),
      (q ∈ outs.map Prod.fst ∨ (lookupFS fs q).isSome = true) →
      (lookupFS (writeAll fs outs) q).isSome = true := by
  induction outs with
  | nil =>
      intro fs q h
      simpa [writeAll] using h.resolve_left (by simp)
  | cons o os ih =>
      intro fs q h
      have hstep : writeAll fs (o :: os) = writeAll (write fs o.1 o.2) os := rfl
      rw [hstep]
      by_cases hq : q = o.1
      · refine ih (write fs o.1 o.2) q (Or.inr ?_)
        rw [hq, lookupFS_write_self]
        rfl
      · rcases h with h | h
        · have hos : q ∈ os.map Prod.fst := by
            rcases List.mem_map.1 h with ⟨e, he, hqe⟩
            rcases List.mem_cons.1 he with rfl | he2
            · exact absurd hqe.symm hq
            · exact List.mem_map.2 ⟨e, he2, hqe⟩
          exact ih _ q (Or.inl hos)
        · refine ih _ q (Or.inr ?_)
          rw [lookupFS_write_ne fs o.1 q o.2 hq]
          exact h

theorem applyTask_serverRunning (s : Sys) (n : String) :
    (applyTask s n).serverRunning =
      (if n = "connect" then true else s.serverRunning) := by
  unfold applyTask
  split_ifs <;> simp_all

theorem applyTask_watching (s : Sys) (n : String) :
    (applyTask s n).watching =
      (if n = "watch" then true else s.watching) := by
  unfold applyTask
  split_ifs <;> simp_all

/-! ## Claims -/

set_option maxRecDepth 10000 in
/-- C1: in the registry built by the gulpfile's register calls, `run(t)`
executes every transitive prerequisite of `t` exactly once per
invocation (a shared prerequisite is memoized and appears once),
executes nothing outside `t` and its transitive prerequisites, and the
sequential trace completes every task's declared prerequisites — in
particular every transitive prerequisite of `t` — strictly before the
dependent task's own action begins. -/
theorem run_executes_prereqs_once_in_dependency_order :
    ∀ t ∈ names gulpRegistry,
      (∀ d ∈ gulpTransDeps t, (execOrder t).count d = 1) ∧
      (execOrder t).count t = 1 ∧
      (∀ d ∈ execOrder t, d = t ∨ d ∈ gulpTransDeps t) ∧
      (∀ u ∈ execOrder t, ∀ d ∈ depsOf u,
        evIdx (seqTrace (execOrder t)) (Ev.finish d) <
          evIdx (seqTrace (execOrder t)) (Ev.start u)) ∧
      (∀ d ∈ gulpTransDeps t,
        evIdx (seqTrace (execOrder t)) (Ev.finish d) <
          evIdx (seqTrace (execOrder t)) (Ev.start t)) := by
  decide

/-- Witness for C1 at the concrete task `default`. -/
theorem run_executes_prereqs_once_in_dependency_order_witness :
    "default" ∈ names gulpRegistry ∧ (execOrder "default").count "default" = 1 :=
  ⟨by decide, (run_executes_prereqs_once_in_dependency_order "default" (by decide)).2.1⟩

/-- C2: invoking the `default` command resolves to the linear order
clean, copyhtml, copyjs, connect, watch (then `default`'s own empty
action), and after the run the server session and the watchers are
active, so the process keeps running. -/
theorem default_order_clean_html_js_server_watch :
    execOrder "default" =
      ["clean", "copyhtml", "copyjs", "connect", "watch", "default"] ∧
    ∀ s : Sys, (runTask s "default").serverRunning = true ∧
      (runTask s "default").watching = true := by
  refine ⟨by decide, fun s => ?_⟩
  have h : runTask s "default" =
      applyTask (applyTask (applyTask (applyTask (applyTask (applyTask s
        "clean") "copyhtml") "copyjs") "connect") "watch") "default" := rfl
  rw [h]
  constructor <;> simp [applyTask_serverRunning, applyTask_watching]

/-- C3: registering a task whose name is already registered is rejected
with a configuration error; every registry reachable by a sequence of
successful `register` calls has pairwise distinct task names; and the
gulpfile's own registration sequence succeeds, yielding a
duplicate-free registry. -/
theorem duplicate_registration_always_rejected :
    (∀ (r : Registry) (t : Task), t.name ∈ names r →
       register r t = Except.error ("duplicate task: " ++ t.name)) ∧
    (∀ (ts : List Task) (r r' : Registry), (names r).Nodup →
       registerAll r ts = Except.ok r' → (names r').Nodup) ∧
    registerAll [] gulpfileRegistrations = Except.ok gulpRegistry ∧
    (names gulpRegistry).Nodup := by
  refine ⟨?_, ?_, rfl, by decide⟩
  · intro r t h
    simp [register, h]
  · intro ts
    induction ts with
    | nil =>
        intro r r' hnd h
        simp only [registerAll] at h
        cases h
        exact hnd
    | cons t ts ih =>
        intro r r' hnd h
        by_cases hmem : t.name ∈ names r
        · simp [registerAll, register, hmem] at h
        · simp only [registerAll, register, if_neg hmem] at h
          refine ih (r ++ [t]) r' ?_ h
          have hne : names (r ++ [t]) = names r ++ [t.name] := by
            simp [names]
          rw [hne]
          exact List.Nodup.append hnd (List.nodup_singleton _)
            (by simpa using hmem)

/-- Witness for C3: re-registering `clean` on the gulpfile's registry is
rejected. -/
theorem duplicate_registration_always_rejected_witness :
    "clean" ∈ names gulpRegistry ∧
      register gulpRegistry ⟨"clean", []⟩ =
        Except.error ("duplicate task: " ++ "clean") :=
  ⟨by decide,
    duplicate_registration_always_rejected.1 gulpRegistry ⟨"clean", []⟩ (by decide)⟩

/-- C4: a change event whose path matches a watch binding's glob
schedules exactly one `run` invocation of the bound task, and the
scheduling decision is independent of the destination file system (no
dedupe, debounce, or skip-if-unchanged). -/
theorem watch_event_schedules_one_run (d d' : FS) (p : Path) (b : WatchBinding)
    (hb : b ∈ gulpWatchBindings) (hm : matchSegs b.glob p = true) :
    (scheduledRuns gulpWatchBindings d p).count b.task = 1 ∧
    scheduledRuns gulpWatchBindings d p = scheduledRuns gulpWatchBindings d' p := by
  refine ⟨?_, rfl⟩
  rcases List.mem_cons.1 hb with rfl | hb2
  · cases h2 : matchSegs watchHtmlGlob p <;>
      simp [scheduledRuns, gulpWatchBindings, hm, h2, List.count_cons]
  · rcases List.mem_cons.1 hb2 with rfl | hb3
    · cases h1 : matchSegs watchJsGlob p <;>
        simp [scheduledRuns, gulpWatchBindings, hm, h1, List.count_cons]
    · simp at hb3

/-- Witness for C4 at the event path `src/app.js` and the `copyjs`
binding. -/
theorem watch_event_schedules_one_run_witness :
    (⟨watchJsGlob, "copyjs"⟩ : WatchBinding) ∈ gulpWatchBindings ∧
      matchSegs watchJsGlob ["src", "app.js"] = true ∧
      (scheduledRuns gulpWatchBindings [] ["src", "app.js"]).count "copyjs" = 1 :=
  ⟨by decide, by decide,
    (watch_event_schedules_one_run [] [] ["src", "app.js"]
      ⟨watchJsGlob, "copyjs"⟩ (by decide) (by decide)).1⟩

/-- C5: `clean` is idempotent — applying it twice leaves the file system
exactly as applying it once; the result holds no entry under `dist`; and
on an empty (or `dist`-free) file system `clean` is a no-op rather than
an error. -/
theorem clean_idempotent_and_total (fs : FS) :
    cleanFS (cleanFS fs) = cleanFS fs ∧
    distPart (cleanFS fs) = [] ∧
    cleanFS [] = [] ∧
    (distPart fs = [] → cleanFS fs = fs) := by
  refine ⟨by simp [cleanFS, List.filter_filter], ?_, rfl, ?_⟩
  · induction fs with
    | nil => rfl
    | cons e fs ih =>
        by_cases h : e.1.headI = "dist" <;>
          simp [cleanFS, distPart, List.filter, h, ih]
  · intro h
    induction fs with
    | nil => rfl
    | cons e fs ih =>
        by_cases he : e.1.headI = "dist"
        · simp [distPart, List.filter, he] at h
        · have hfs : distPart fs = [] := by
            simpa [distPart, List.filter, he] using h
          have hcons : cleanFS (e :: fs) = e :: cleanFS fs := by
            simp [cleanFS, List.filter, he]
          rw [hcons, ih hfs]

/-- Witness for C5: on a file system with one source file and no `dist`
entries, `clean` is a no-op. -/
theorem clean_idempotent_and_total_witness :
    distPart [(["src", "a.js"], "x")] = [] ∧
      cleanFS [(["src", "a.js"], "x")] = [(["src", "a.js"], "x")] :=
  ⟨by decide, (clean_idempotent_and_total [(["src", "a.js"], "x")]).2.2.2 (by decide)⟩

/-- C6: every source file matched by the `copyjs` glob appears in the
destination after the transform at `dist/` followed by exactly its path
relative to the base `src/` — the relative path structure is preserved,
for any transformation function. -/
theorem transform_preserves_relative_paths (compile : String → String) (fs : FS)
    (e : Path × String) (he : e ∈ fs) (hm : matchSegs copyjsGlob e.1 = true) :
    (lookupFS (copyJsAll compile fs) ("dist" :: e.1.tail)).isSome = true := by
  apply lookupFS_writeAll_isSome
  left
  simp only [copyJsOutputs, List.map_map]
  refine List.mem_map.2 ⟨e, ?_, rfl⟩
  exact List.mem_filter.2 ⟨he, by simpa using hm⟩

/-- Witness for C6: a nested source file `src/lib/a.js` lands at
`dist/lib/a.js`. -/
theorem transform_preserves_relative_paths_witness :
    ((["src", "lib", "a.js"], "code") ∈ ([(["src", "lib", "a.js"], "code")] : FS)) ∧
      matchSegs copyjsGlob ["src", "lib", "a.js"] = true ∧
      (lookupFS (copyJsAll id [(["src", "lib", "a.js"], "code")])
        ["dist", "lib", "a.js"]).isSome = true :=
  ⟨by decide, by decide,
    transform_preserves_relative_paths id [(["src", "lib", "a.js"], "code")]
      (["src", "lib", "a.js"], "code") (by decide) (by decide)⟩

/-- C7: the per-file `copyjs` write of the babel variant is
all-or-nothing — when the transformation fails the failure is surfaced
and the destination is left exactly as it was (previous version or no
file); when it succeeds the destination holds the complete transformed
output; and no other destination path is touched either way. -/
theorem babel_write_all_or_nothing (compile : String → Option String)
    (dest : FS) (e : Path × String) :
    (compile e.2 = none → copyJsFileBabel compile dest e = (dest, true)) ∧
    (∀ out, compile e.2 = some out →
       (copyJsFileBabel compile dest e).2 = false ∧
       lookupFS (copyJsFileBabel compile dest e).1 ("dist" :: e.1.tail) = some out) ∧
    (∀ q, ¬ q = "dist" :: e.1.tail →
       lookupFS (copyJsFileBabel compile dest e).1 q = lookupFS dest q) := by
  refine ⟨fun h => by simp [copyJsFileBabel, h], fun out h => ?_, fun q hq => ?_⟩
  · simp [copyJsFileBabel, h, lookupFS_write_self]
  · cases h : compile e.2 with
    | none => simp [copyJsFileBabel, h]
    | some out => simp [copyJsFileBabel, h, lookupFS_write_ne _ _ _ _ hq]

/-- Witness for C7: a failing transformation leaves the destination
untouched and reports the failure; a succeeding one writes the whole
output. -/
theorem babel_write_all_or_nothing_witness :
    copyJsFileBabel (fun _ => none) [] (["src", "a.js"], "x") = ([], true) ∧
      lookupFS (copyJsFileBabel (fun s => some s) [] (["src", "a.js"], "x")).1
        ["dist", "a.js"] = some "x" :=
  ⟨(babel_write_all_or_nothing (fun _ => none) [] (["src", "a.js"], "x")).1 rfl,
    ((babel_write_all_or_nothing (fun s => some s) [] (["src", "a.js"], "x")).2.1
      "x" rfl).2⟩

/-- C8: the `copyhtml` body does not return its stream, so the
orchestrator observes it complete immediately — before the pipeline's
`dest` write and `reload` notification happen — whereas `copyjs` and
`clean` return their streams and are observed complete only after every
pipeline stage has finished. -/
theorem copyhtml_observed_complete_before_pipeline :
    copyhtmlAction.returnsStream = false ∧
    copyjsAction.returnsStream = true ∧
    cleanAction.returnsStream = true ∧
    observedCompletion copyhtmlAction = Completion.immediate ∧
    observedCompletion copyjsAction = Completion.pipelineEnd ∧
    observedCompletion cleanAction = Completion.pipelineEnd ∧
    (observationTimeline copyhtmlAction).indexOf "observedComplete" <
      (observationTimeline copyhtmlAction).indexOf "dest ./dist" ∧
    (observationTimeline copyhtmlAction).indexOf "observedComplete" <
      (observationTimeline copyhtmlAction).indexOf "connect.reload" ∧
    (∀ op ∈ copyjsAction.pipelineOps,
      (observationTimeline copyjsAction).indexOf op <
        (observationTimeline copyjsAction).indexOf "observedComplete") ∧
    (∀ op ∈ cleanAction.pipelineOps,
      (observationTimeline cleanAction).indexOf op <
        (observationTimeline cleanAction).indexOf "observedComplete") := by
  decide

/-- Witness for C8 at the `connect.reload` stage of the `copyjs`
pipeline. -/
theorem copyhtml_observed_complete_before_pipeline_witness :
    "connect.reload" ∈ copyjsAction.pipelineOps ∧
      (observationTimeline copyjsAction).indexOf "connect.reload" <
        (observationTimeline copyjsAction).indexOf "observedComplete" :=
  ⟨by decide,
    copyhtml_observed_complete_before_pipeline.2.2.2.2.2.2.2.2.1
      "connect.reload" (by decide)⟩

/-- C9: the watch binding `./src/*.js` matches only top-level files of
`src`, while the `copyjs` glob `src/**/*.js` also matches nested files;
hence a change to a `.js` file in any subdirectory of `src` matches the
build glob but triggers no watch binding at all — no `copyjs` run is
scheduled for it. -/
theorem nested_js_change_never_triggers_copyjs (d : FS) (mids : List String)
    (pre file : String) (hmids : mids ≠ []) (hfile : file = pre ++ ".js") :
    matchSegs copyjsGlob ("src" :: (mids ++ [file])) = true ∧
    matchSegs watchJsGlob ("src" :: (mids ++ [file])) = false ∧
    scheduledRuns gulpWatchBindings d ("src" :: (mids ++ [file])) = [] := by
  have hdata : file.data = pre.data ++ ('.' :: 'j' :: 's' :: []) := by
    rw [hfile, String.data_append]
  have hjs : matchSegs ["*.js"] [file] = true := by
    show (matchSeg ('*' :: '.' :: 'j' :: 's' :: []) file.data && true) = true
    rw [Bool.and_true, hdata]
    exact matchSeg_star_suffix ('.' :: 'j' :: 's' :: []) (by decide) pre.data
  obtain ⟨m, ms, rfl⟩ := List.exists_cons_of_ne_nil hmids
  obtain ⟨x, xs, hxx⟩ := List.exists_cons_of_ne_nil
    (show ms ++ [file] ≠ [] by simp)
  have hcopy : matchSegs copyjsGlob ("src" :: ((m :: ms) ++ [file])) = true := by
    show (matchSeg "src".data "src".data &&
      matchSegs ["**", "*.js"] ((m :: ms) ++ [file])) = true
    rw [matchSegs_globstar_append ["*.js"] [file] hjs (m :: ms), Bool.and_true]
    decide
  have hwatch : matchSegs watchJsGlob ("src" :: ((m :: ms) ++ [file])) = false := by
    show matchSegs ["src", "*.js"] ("src" :: (m :: (ms ++ [file]))) = false
    rw [hxx]
    exact matchSegs_two_lits "src" "*.js" (by decide) (by decide) "src" m x xs
  have hhtml : matchSegs watchHtmlGlob ("src" :: ((m :: ms) ++ [file])) = false := by
    show matchSegs ["src", "index.html"] ("src" :: (m :: (ms ++ [file]))) = false
    rw [hxx]
    exact matchSegs_two_lits "src" "index.html" (by decide) (by decide) "src" m x xs
  refine ⟨hcopy, hwatch, ?_⟩
  have hw2 : matchSegs watchJsGlob ("src" :: m :: (ms ++ [file])) = false := by
    simpa using hwatch
  have hh2 : matchSegs watchHtmlGlob ("src" :: m :: (ms ++ [file])) = false := by
    simpa using hhtml
  simp [scheduledRuns, gulpWatchBindings, hw2, hh2]

/-- Witness for C9 at the nested path `src/sub/app.js`. -/
theorem nested_js_change_never_triggers_copyjs_witness :
    matchSegs copyjsGlob ["src", "sub", "app.js"] = true ∧
      matchSegs watchJsGlob ["src", "sub", "app.js"] = false ∧
      scheduledRuns gulpWatchBindings [] ["src", "sub", "app.js"] = [] :=
  nested_js_change_never_triggers_copyjs [] ["sub"] "app" "app.js"
    (by decide) rfl

/-- C10: every task the primary gulpfile registers other than `clean`
and the aggregate `default` — that is `connect`, `watch`, `copyhtml`
and `copyjs` — declares exactly `['clean']` as its prerequisite list, so
invoking any of these commands on its own resolves to the order
`[clean, task]` and first empties the destination before the task's own
action runs. -/
theorem nondefault_tasks_clean_first :
    ∀ n ∈ (["connect", "watch", "copyhtml", "copyjs"] : List String),
      lookupTask gulpRegistry n = some ⟨n, ["clean"]⟩ ∧
      execOrder n = ["clean", n] ∧
      ∀ s : Sys, runTask s n = applyTask (applyTask s "clean") n := by
  intro n hn
  fin_cases hn <;> exact ⟨rfl, rfl, fun s => rfl⟩

/-- Witness for C10 at the `connect` command. -/
theorem nondefault_tasks_clean_first_witness :
    "connect" ∈ (["connect", "watch", "copyhtml", "copyjs"] : List String) ∧
      execOrder "connect" = ["clean", "connect"] :=
  ⟨by decide, (nondefault_tasks_clean_first "connect" (by decide)).2.1⟩

end Es6Build
